import Mathlib

/-!
Verification of the quillion-cli development-server orchestrator against its
specification.  The repository's `run.py` and `templates.py` are embedded
directly from source.  The server modules (`websocket_server.py`,
`http_server.py`) are not part of the available sources, only their tests and
callers are; those operations are modelled from the specification, with the
in-repository tests pinning concrete details (environment variable names,
grace windows, call orders).
-/

namespace Quillion

/-! ### Shared string utilities (explicit character-list implementations) -/

/-- Split a character list at every occurrence of the separator character. -/
def splitChar (sep : Char) : List Char → List (List Char)
  | [] => [[]]
  | c :: cs =>
    match splitChar sep cs with
    | [] => if c = sep then [[], []] else [[c]]
    | h :: t => if c = sep then [] :: h :: t else (c :: h) :: t

/-- Join path components back together with `/` separators. -/
def joinStrings : List String → String
  | [] => ""
  | [s] => s
  | s :: rest => s ++ "/" ++ joinStrings rest

/-- Apply a function to the last element of a list, leaving the rest alone. -/
def mapLast (f : String → String) : List String → List String
  | [] => []
  | [s] => [f s]
  | s :: rest => s :: mapLast f rest

/-- Index of the last `.` in a character list, if any. -/
def lastDotIdx : List Char → Option Nat
  | [] => none
  | c :: rest =>
    match lastDotIdx rest with
    | some i => some (i + 1)
    | none => if c = '.' then some 0 else none

/-- Remove the final suffix of a single path component, following the
`pathlib.PurePath.with_suffix("")` convention: a suffix exists only when the
last dot is neither the first nor the last character of the name. -/
def stripLastSuffix (name : String) : String :=
  match lastDotIdx name.data with
  | some i => if 0 < i ∧ i + 1 < name.data.length then ⟨name.data.take i⟩ else name
  | none => name

/-- Model of Python `Path(path).with_suffix("")`: only the final component of
the path has its final suffix removed. -/
def withSuffixEmpty (path : String) : String :=
  joinStrings (mapLast stripLastSuffix ((splitChar '/' path.data).map (fun cs => (⟨cs⟩ : String))))

end Quillion

namespace Quillion.Supervisor

/-! ### Process supervisor (`quillion_cli/server/websocket_server.py`)

The module itself is not among the available sources; `run_server`,
`restart_server` and `shutdown_server` are modelled from the specification
(§4.1) with the concrete details fixed by `src/tests/test_websocket_server.py`.
Exceptions are modelled explicitly: an operation yields an `Except` value
together with the list of observable events it performed before returning or
raising. -/

/-- Opaque handle to one OS child process. -/
abbrev Proc := Nat

/-- A process environment: an association list of variable names to values. -/
abbrev Env := List (String × String)

/-- Error reports emitted through the logging collaborator. -/
inductive Report
  | entryPointNotFound (path : String)
  | spawnFailed (reason : String)
deriving DecidableEq

/-- Observable events of the supervisor operations. -/
inductive Ev
  | terminate
  | wait (timeout : Nat)
  | kill
  | report (r : Report)
  | popen (cmd : List String) (cwd : String) (env : Env)
deriving DecidableEq

/-- A Python-style computation: either a result or a raised exception, together
with the trace of events that happened before control returned. -/
abbrev PyM (α : Type) := Except String α × List Ev

/-- Sequencing: events of the first action always happen; the continuation runs
only when the first action did not raise. -/
def pbind {α β : Type} (x : PyM α) (f : α → PyM β) : PyM β :=
  match x with
  | (Except.error e, t) => (Except.error e, t)
  | (Except.ok a, t) => ((f a).1, t ++ (f a).2)

/-- Python `try`/`except`: the handler runs exactly when the body raised, and
the body's events up to the raise are kept. -/
def ptry {α : Type} (x : PyM α) (handler : PyM α) : PyM α :=
  match x with
  | (Except.ok a, t) => (Except.ok a, t)
  | (Except.error _, t) => (handler.1, t ++ handler.2)

/-- How the current child process reacts to the supervisor's calls: whether
`terminate`, `wait(timeout=…)` and `kill` raise.  A raising `wait` models
`subprocess.TimeoutExpired`. -/
structure ProcBehavior where
  terminateRaises : Bool
  waitRaises : Bool
  killRaises : Bool
deriving DecidableEq

/-- One `process.terminate()` call. -/
def terminateOp (b : ProcBehavior) : PyM Unit :=
  ((if b.terminateRaises then Except.error "terminate failed" else Except.ok ()), [Ev.terminate])

/-- One `process.wait(timeout=t)` call. -/
def waitOp (b : ProcBehavior) (timeout : Nat) : PyM Unit :=
  ((if b.waitRaises then Except.error "TimeoutExpired" else Except.ok ()), [Ev.wait timeout])

/-- One `process.kill()` call. -/
def killOp (b : ProcBehavior) : PyM Unit :=
  ((if b.killRaises then Except.error "kill failed" else Except.ok ()), [Ev.kill])

/-- Python `pass` inside an exception handler. -/
def passOp : PyM Unit := (Except.ok (), [])

/-- Logging verbosity flags of the configuration. -/
structure LoggingFlags where
  quiet : Bool
  noColor : Bool
  noFiglet : Bool
deriving DecidableEq

/-- The slice of the run configuration the supervisor reads. -/
structure ServerConfig where
  host : String
  port : Nat
  entryPoint : String
  assetPort : Nat
  flags : LoggingFlags
deriving DecidableEq

/-- Look a variable up in an environment (first binding wins). -/
def lookupEnv : Env → String → Option String
  | [], _ => none
  | (k, v) :: rest, key => if k = key then some v else lookupEnv rest key

/-- Set a variable in an environment, replacing an existing binding of the same
name and appending otherwise — the semantics of `env[key] = value` on a
`dict`. -/
def setEnv : Env → String → String → Env
  | [], key, value => [(key, value)]
  | (k, v) :: rest, key, value =>
    if k = key then (key, value) :: rest else (k, v) :: setEnv rest key value

/-- String serialization of a boolean logging flag, as the tests pin it for
enabled flags ("1"). -/
def flagStr (b : Bool) : String := if b then "1" else "0"

/-- Modelled from the spec: the child environment is a copy of the parent
environment into which the supervisor injects string serializations of the
supervisor port, the gateway (asset) port and the three logging flags under the
fixed `QUILLION_` prefix (variable names pinned by
`test_environment_variable_types` and `test_run_server_with_debugger_flags`). -/
def childEnv (parent : Env) (config : ServerConfig) : Env :=
  setEnv
    (setEnv
      (setEnv
        (setEnv
          (setEnv parent "QUILLION_PORT" (toString config.port))
          "QUILLION_ASSET_PORT" (toString config.assetPort))
        "QUILLION_QUIET" (flagStr config.flags.quiet))
      "QUILLION_NO_COLOR" (flagStr config.flags.noColor))
    "QUILLION_NO_FIGLET" (flagStr config.flags.noFiglet)

/-- The interpreter executing the child, `sys.executable` in the source. -/
def pythonExecutable : String := "python"

/-- Resolution of the entry point relative to the project root. -/
def resolveEntry (config : ServerConfig) (projectDir : String) : String :=
  projectDir ++ "/" ++ config.entryPoint

/-- Modelled from the spec: `run_server` (spawn) from the missing
`websocket_server.py`.  It resolves `projectRoot/config.entryPoint`; when the
path does not exist it reports `EntryPointNotFound` with the resolved path and
returns no process; otherwise it launches the process via `Popen` with the
project root as working directory and the extended environment, returning no
process and reporting `SpawnFailed` when the launch raises.  The filesystem is
a list of existing paths and the `Popen` outcome is a parameter. -/
def run_server (fs : List String) (popenResult : Except String Proc)
    (config : ServerConfig) (projectDir : String) (parentEnv : Env) :
    Option Proc × List Ev :=
  let entry := resolveEntry config projectDir
  if fs.contains entry then
    let env := childEnv parentEnv config
    match popenResult with
    | Except.ok p => (some p, [Ev.popen [pythonExecutable, entry] projectDir env])
    | Except.error reason =>
      (none, [Ev.popen [pythonExecutable, entry] projectDir env,
              Ev.report (Report.spawnFailed reason)])
  else
    (none, [Ev.report (Report.entryPointNotFound entry)])

/-- Lift `run_server` (which swallows its own exceptions) into a `PyM` step. -/
def spawnStep (fs : List String) (popenResult : Except String Proc)
    (config : ServerConfig) (projectDir : String) (parentEnv : Env) :
    PyM (Option Proc) :=
  ((Except.ok (run_server fs popenResult config projectDir parentEnv).1),
   (run_server fs popenResult config projectDir parentEnv).2)

/-- Modelled from the spec: `restart_server` from the missing
`websocket_server.py`.  With an existing previous process it terminates it,
waits up to the 5-unit grace window, and on a raise from either call kills it,
swallowing kill failures; then it calls `run_server` and returns its result.
Grace window and call order pinned by `test_restart_server_with_existing_process`
and `test_restart_server_terminate_timeout`. -/
def restart_server (b : ProcBehavior) (fs : List String)
    (popenResult : Except String Proc) (config : ServerConfig)
    (projectDir : String) (parentEnv : Env) (previous : Option Proc) :
    PyM (Option Proc) :=
  match previous with
  | none => spawnStep fs popenResult config projectDir parentEnv
  | some _ =>
    pbind
      (ptry (pbind (terminateOp b) (fun _ => waitOp b 5))
            (ptry (killOp b) passOp))
      (fun _ => spawnStep fs popenResult config projectDir parentEnv)

/-- Modelled from the spec: `shutdown_server` from the missing
`websocket_server.py`.  A missing process is a silent no-op; otherwise
terminate, wait up to the 3-unit grace window, and on a raise from either call
kill, swallowing kill failures; no exception escapes.  Grace window pinned by
`test_shutdown_server_wait_timeout`. -/
def shutdown_server (b : ProcBehavior) (process : Option Proc) : PyM Unit :=
  match process with
  | none => (Except.ok (), [])
  | some _ =>
    ptry (pbind (terminateOp b) (fun _ => waitOp b 3))
         (ptry (killOp b) passOp)

/-- Claim C1: for every `restart` call with an existing previous process, the
call first terminates the previous process, waiting up to the 5-unit grace
window, kills it exactly when the wait timed out or the terminate call itself
raised (without re-raising, kill failures included), and only then performs the
spawn; the call never raises and returns exactly `run_server`'s result — the
new process on success, no process when the spawn fails. -/
theorem restart_disposes_then_spawns (b : ProcBehavior) (fs : List String)
    (popenResult : Except String Proc) (config : ServerConfig)
    (projectDir : String) (parentEnv : Env) (p : Proc) :
    restart_server b fs popenResult config projectDir parentEnv (some p) =
      (Except.ok (run_server fs popenResult config projectDir parentEnv).1,
        (if b.terminateRaises then [Ev.terminate, Ev.kill]
         else if b.waitRaises then [Ev.terminate, Ev.wait 5, Ev.kill]
         else [Ev.terminate, Ev.wait 5]) ++
          (run_server fs popenResult config projectDir parentEnv).2) := by
  rcases b with ⟨tR, wR, kR⟩
  cases tR <;> cases wR <;> cases kR <;> rfl

/-- Claim C2: for every configuration whose resolved entry point is not an
existing path, `run_server` returns no process and its trace is exactly one
`EntryPointNotFound` report naming the resolved path — in particular no
`Popen` call is made. -/
theorem run_server_missing_entry (fs : List String)
    (popenResult : Except String Proc) (config : ServerConfig)
    (projectDir : String) (parentEnv : Env)
    (h : fs.contains (resolveEntry config projectDir) = false) :
    run_server fs popenResult config projectDir parentEnv =
      (none, [Ev.report (Report.entryPointNotFound (resolveEntry config projectDir))]) ∧
    ∀ cmd cwd env, Ev.popen cmd cwd env ∉
      (run_server fs popenResult config projectDir parentEnv).2 := by
  have hmem : resolveEntry config projectDir ∉ fs := by simpa using h
  have hrun : run_server fs popenResult config projectDir parentEnv =
      (none, [Ev.report (Report.entryPointNotFound (resolveEntry config projectDir))]) := by
    unfold run_server
    simp [h, hmem]
  refine ⟨hrun, ?_⟩
  intro cmd cwd env hmem
  rw [hrun] at hmem
  simp at hmem

/-- Concrete configuration used by several witnesses. -/
def cfgA : ServerConfig :=
  { host := "127.0.0.1", port := 8000, entryPoint := "main.py", assetPort := 8080,
    flags := { quiet := false, noColor := false, noFiglet := false } }

/-- Witness for claim C2: on an empty filesystem the entry point
`/proj/main.py` is missing and `run_server` emits exactly the
`EntryPointNotFound` report. -/
theorem run_server_missing_entry_witness :
    ([] : List String).contains (resolveEntry cfgA "/proj") = false ∧
    run_server [] (Except.ok 1) cfgA "/proj" [] =
      (none, [Ev.report (Report.entryPointNotFound (resolveEntry cfgA "/proj"))]) := by
  refine ⟨by decide, ?_⟩
  exact (run_server_missing_entry [] (Except.ok 1) cfgA "/proj" [] (by decide)).1

/-- Claim C3: `shutdown_server` never raises for any process behavior: a
missing process is a silent no-op; with a process, terminate happens first, and
kill is invoked exactly when terminate raised (immediately, skipping the wait)
or the 3-unit wait timed out; even when terminate and kill both raise, the
result is still a normal return. -/
theorem shutdown_server_never_raises (b : ProcBehavior) (p : Proc) :
    shutdown_server b none = (Except.ok (), []) ∧
    (shutdown_server b (some p)).1 = Except.ok () ∧
    (shutdown_server b (some p)).2 =
      (if b.terminateRaises then [Ev.terminate, Ev.kill]
       else if b.waitRaises then [Ev.terminate, Ev.wait 3, Ev.kill]
       else [Ev.terminate, Ev.wait 3]) := by
  refine ⟨rfl, ?_, ?_⟩ <;>
    · rcases b with ⟨tR, wR, kR⟩
      cases tR <;> cases wR <;> cases kR <;> rfl

theorem lookupEnv_setEnv_self (e : Env) (k v : String) :
    lookupEnv (setEnv e k v) k = some v := by
  induction e with
  | nil => simp [setEnv, lookupEnv]
  | cons hd tl ih =>
    rcases hd with ⟨k0, v0⟩
    by_cases hk : k0 = k
    · simp [setEnv, hk, lookupEnv]
    · simp [setEnv, hk, lookupEnv, ih]

theorem lookupEnv_setEnv_ne (e : Env) (k v q : String) (h : k ≠ q) :
    lookupEnv (setEnv e k v) q = lookupEnv e q := by
  induction e with
  | nil => simp [setEnv, lookupEnv, h]
  | cons hd tl ih =>
    rcases hd with ⟨k0, v0⟩
    by_cases hk : k0 = k
    · subst hk
      simp [setEnv, lookupEnv, h]
    · simp [setEnv, hk, lookupEnv, ih]

theorem lookupEnv_isSome_of_mem (e : Env) (k v : String) (h : (k, v) ∈ e) :
    (lookupEnv e k).isSome = true := by
  induction e with
  | nil => simp at h
  | cons hd tl ih =>
    rcases hd with ⟨k0, v0⟩
    rcases List.mem_cons.mp h with h0 | h0
    · cases h0
      simp [lookupEnv]
    · by_cases hk : k0 = k
      · simp [lookupEnv, hk]
      · simp [lookupEnv, hk, ih h0]

theorem lookupEnv_setEnv_isSome (e : Env) (k v q : String)
    (h : (lookupEnv e q).isSome = true) :
    (lookupEnv (setEnv e k v) q).isSome = true := by
  by_cases hk : k = q
  · subst hk
    simp [lookupEnv_setEnv_self]
  · rw [lookupEnv_setEnv_ne e k v q hk]
    exact h

/-- Claim C6 (amended): a successful spawn passes the `Popen` call exactly the
parent environment extended with the five `QUILLION_`-prefixed string
variables for the supervisor port, the gateway port and the three logging
flags; every pre-existing variable whose name is not one of the five injected
ones keeps its original value, and no variable is cleared (every parent key is
still bound). -/
theorem spawn_env_extends_parent (fs : List String) (config : ServerConfig)
    (projectDir : String) (parentEnv : Env) (p : Proc)
    (hentry : fs.contains (resolveEntry config projectDir) = true) :
    run_server fs (Except.ok p) config projectDir parentEnv =
      (some p, [Ev.popen [pythonExecutable, resolveEntry config projectDir]
        projectDir (childEnv parentEnv config)]) ∧
    lookupEnv (childEnv parentEnv config) "QUILLION_PORT" = some (toString config.port) ∧
    lookupEnv (childEnv parentEnv config) "QUILLION_ASSET_PORT" = some (toString config.assetPort) ∧
    lookupEnv (childEnv parentEnv config) "QUILLION_QUIET" = some (flagStr config.flags.quiet) ∧
    lookupEnv (childEnv parentEnv config) "QUILLION_NO_COLOR" = some (flagStr config.flags.noColor) ∧
    lookupEnv (childEnv parentEnv config) "QUILLION_NO_FIGLET" = some (flagStr config.flags.noFiglet) ∧
    (∀ k, k ≠ "QUILLION_PORT" → k ≠ "QUILLION_ASSET_PORT" → k ≠ "QUILLION_QUIET" →
      k ≠ "QUILLION_NO_COLOR" → k ≠ "QUILLION_NO_FIGLET" →
      lookupEnv (childEnv parentEnv config) k = lookupEnv parentEnv k) ∧
    (∀ k v, (k, v) ∈ parentEnv → (lookupEnv (childEnv parentEnv config) k).isSome = true) := by
  have hmem : resolveEntry config projectDir ∈ fs := by simpa using hentry
  refine ⟨?_, ?_, ?_, ?_, ?_, ?_, ?_, ?_⟩
  · unfold run_server
    simp [hmem]
  · unfold childEnv
    rw [lookupEnv_setEnv_ne _ _ _ _ (by decide), lookupEnv_setEnv_ne _ _ _ _ (by decide),
      lookupEnv_setEnv_ne _ _ _ _ (by decide), lookupEnv_setEnv_ne _ _ _ _ (by decide),
      lookupEnv_setEnv_self]
  · unfold childEnv
    rw [lookupEnv_setEnv_ne _ _ _ _ (by decide), lookupEnv_setEnv_ne _ _ _ _ (by decide),
      lookupEnv_setEnv_ne _ _ _ _ (by decide), lookupEnv_setEnv_self]
  · unfold childEnv
    rw [lookupEnv_setEnv_ne _ _ _ _ (by decide), lookupEnv_setEnv_ne _ _ _ _ (by decide),
      lookupEnv_setEnv_self]
  · unfold childEnv
    rw [lookupEnv_setEnv_ne _ _ _ _ (by decide), lookupEnv_setEnv_self]
  · unfold childEnv
    rw [lookupEnv_setEnv_self]
  · intro k h1 h2 h3 h4 h5
    unfold childEnv
    rw [lookupEnv_setEnv_ne _ _ _ _ (Ne.symm h5), lookupEnv_setEnv_ne _ _ _ _ (Ne.symm h4),
      lookupEnv_setEnv_ne _ _ _ _ (Ne.symm h3), lookupEnv_setEnv_ne _ _ _ _ (Ne.symm h2),
      lookupEnv_setEnv_ne _ _ _ _ (Ne.symm h1)]
  · intro k v hkv
    unfold childEnv
    exact lookupEnv_setEnv_isSome _ _ _ _ (lookupEnv_setEnv_isSome _ _ _ _
      (lookupEnv_setEnv_isSome _ _ _ _ (lookupEnv_setEnv_isSome _ _ _ _
        (lookupEnv_setEnv_isSome _ _ _ _ (lookupEnv_isSome_of_mem _ _ v hkv)))))

/-- Concrete configuration with the ports of `test_environment_variable_types`. -/
def cfgB : ServerConfig :=
  { host := "127.0.0.1", port := 9000, entryPoint := "main.py", assetPort := 9090,
    flags := { quiet := false, noColor := false, noFiglet := false } }

/-- Counterexample to claim C6 as stated: a parent environment that already
binds `QUILLION_PORT` does not keep its original value — the injected
serialization of the configured port overwrites it. -/
theorem child_env_overwrites_cex :
    lookupEnv [("QUILLION_PORT", "old")] "QUILLION_PORT" = some "old" ∧
    lookupEnv (childEnv [("QUILLION_PORT", "old")] cfgB) "QUILLION_PORT" = some "9000" ∧
    some ("9000" : String) ≠ some ("old" : String) := by
  refine ⟨rfl, by decide, by decide⟩

/-- Witness for claim C6 (amended): concrete instance with parent environment
`PATH=/usr/bin` — the injected port variable is present and `PATH` keeps its
value. -/
theorem spawn_env_extends_parent_witness :
    (["/proj/main.py"] : List String).contains (resolveEntry cfgA "/proj") = true ∧
    lookupEnv (childEnv [("PATH", "/usr/bin")] cfgA) "QUILLION_PORT" = some "8000" ∧
    lookupEnv (childEnv [("PATH", "/usr/bin")] cfgA) "PATH" = some "/usr/bin" := by
  have h := spawn_env_extends_parent ["/proj/main.py"] cfgA "/proj" [("PATH", "/usr/bin")] 1
    (by decide)
  refine ⟨by decide, ?_, ?_⟩
  · have h1 := h.2.1
    exact h1
  · have h2 := h.2.2.2.2.2.2.1 "PATH" (by decide) (by decide) (by decide) (by decide) (by decide)
    rw [h2]
    rfl

end Quillion.Supervisor

namespace Quillion.Gateway

/-! ### Static asset gateway (`quillion_cli/server/http_server.py`)

The module itself is not among the available sources; `translate_path` and
`end_headers` of the request handler are modelled from the specification
(§4.2) with the behaviors fixed by `src/tests/test_http_server.py`. -/

open Quillion

/-- The filesystem visible to the gateway: the existing directories and the
existing regular files, by full path. -/
structure Fs where
  dirs : List String
  files : List String
deriving DecidableEq

/-- Observable events of a `translate_path` call: an error response, a
filesystem access, or delegation to the standard static handler. -/
inductive HEv
  | sendError (code : Nat) (msg : String)
  | fsCheck (path : String)
  | delegateParent (path : String)
deriving DecidableEq

/-- Strip the query string and the fragment from a request path
(`path.split("?")[0].split("#")[0]`). -/
def stripQuery (p : String) : String :=
  ⟨(p.data.takeWhile (fun c => c ≠ '?')).takeWhile (fun c => c ≠ '#')⟩

/-- The meaningful components of the cleaned request path: split on `/`,
dropping empty components and `.`. -/
def pathParts (p : String) : List String :=
  ((splitChar '/' (stripQuery p).data).map (fun cs => (⟨cs⟩ : String))).filter
    (fun s => (s != "") && (s != "."))

/-- Whether the component sequence ever climbs above its starting directory:
each `..` pops one level and any other component pushes one. -/
def climbs : List String → Nat → Bool
  | [], _ => false
  | c :: rest, d =>
    if c = ".." then (if d = 0 then true else climbs rest (d - 1))
    else climbs rest (d + 1)

/-- Resolve the in-root component sequence: `..` cancels the previous
component (only reached when the sequence does not climb above the root). -/
def normParts : List String → List String → List String
  | [], acc => acc
  | c :: rest, acc =>
    if c = ".." then normParts rest acc.dropLast else normParts rest (acc ++ [c])

/-- The gateway's document root, `projectRoot/staticRoot`. -/
def docRoot (projectDir packagesDir : String) : String :=
  projectDir ++ "/" ++ packagesDir

/-- The request path relative to the document root after cleaning and
resolution. -/
def relOf (path : String) : String :=
  joinStrings (normParts (pathParts path) [])

/-- The full resolved path of the request under the document root. -/
def fullOf (projectDir packagesDir path : String) : String :=
  if relOf path = "" then docRoot projectDir packagesDir
  else docRoot projectDir packagesDir ++ "/" ++ relOf path

/-- The final component of the resolved request path. -/
def lastNameOf (path : String) : String :=
  (normParts (pathParts path) []).getLast?.getD ""

/-- Whether a path component carries a file extension: it contains a dot
after its first character. -/
def hasExtension (name : String) : Bool :=
  (name.data.drop 1).contains '.'

/-- Modelled from the spec: `translate_path` of the request handler in the
missing `http_server.py`.  It strips query string and fragment, answers
`400 Invalid path` with no filesystem access for a path climbing above the
document root, serves a directory's own `index.html` when present, delegates a
directory without one to the standard handler (the `parent` function), serves
a path carrying an extension directly under the document root, and falls back
to the root `index.html` for extensionless application routes.  Behaviors
fixed by the `translate_path` tests in `test_http_server.py`. -/
def translate_path (fs : Fs) (parent : String → String)
    (projectDir packagesDir path : String) : Option String × List HEv :=
  if climbs (pathParts path) 0 then
    (none, [HEv.sendError 400 "Invalid path"])
  else
    let root := docRoot projectDir packagesDir
    let full := fullOf projectDir packagesDir path
    if fs.dirs.contains full then
      let idx := full ++ "/index.html"
      if fs.files.contains idx then
        (some idx, [HEv.fsCheck full, HEv.fsCheck idx])
      else
        (some (parent path), [HEv.fsCheck full, HEv.fsCheck idx, HEv.delegateParent path])
    else if hasExtension (lastNameOf path) then
      (some full, [HEv.fsCheck full])
    else
      (some (root ++ "/index.html"), [HEv.fsCheck full])

/-- Claim C4: every request path whose resolved components climb above the
document root is answered with exactly a `400 Invalid path` error and no
translated path, and the trace holds no filesystem access. -/
theorem translate_path_rejects_traversal (fs : Fs) (parent : String → String)
    (projectDir packagesDir path : String)
    (h : climbs (pathParts path) 0 = true) :
    translate_path fs parent projectDir packagesDir path =
      (none, [HEv.sendError 400 "Invalid path"]) ∧
    ∀ q, HEv.fsCheck q ∉ (translate_path fs parent projectDir packagesDir path).2 := by
  have hrun : translate_path fs parent projectDir packagesDir path =
      (none, [HEv.sendError 400 "Invalid path"]) := by
    unfold translate_path
    simp [h]
  refine ⟨hrun, ?_⟩
  intro q hq
  rw [hrun] at hq
  simp at hq

/-- Standard-handler stand-in used by concrete gateway instances. -/
def parentA : String → String := fun _ => "PARENT"

/-- Witness for claim C4: the traversal request `/../etc/passwd` is rejected
with `400 Invalid path`. -/
theorem translate_path_rejects_traversal_witness :
    climbs (pathParts "/../etc/passwd") 0 = true ∧
    translate_path ⟨["/pr/.q"], ["/pr/.q/index.html"]⟩ parentA "/pr" ".q" "/../etc/passwd" =
      (none, [HEv.sendError 400 "Invalid path"]) := by
  refine ⟨by decide, ?_⟩
  exact (translate_path_rejects_traversal ⟨["/pr/.q"], ["/pr/.q/index.html"]⟩ parentA
    "/pr" ".q" "/../etc/passwd" (by decide)).1

/-- Claim C5 (amended): after stripping query string and fragment, a
non-climbing request path that does not resolve to an existing directory
resolves to the corresponding file under the document root when it carries a
file extension, and to the document root's `index.html` (SPA fallback)
otherwise; a request resolving to an existing directory whose own `index.html`
exists resolves to that `index.html` (so `/` on a document root containing
`index.html` yields `<root>/index.html`). -/
theorem translate_path_spa_fallback (fs : Fs) (parent : String → String)
    (projectDir packagesDir path : String)
    (hsafe : climbs (pathParts path) 0 = false) :
    (fs.dirs.contains (fullOf projectDir packagesDir path) = false →
      translate_path fs parent projectDir packagesDir path =
        (some (if hasExtension (lastNameOf path) then fullOf projectDir packagesDir path
               else docRoot projectDir packagesDir ++ "/index.html"),
         [HEv.fsCheck (fullOf projectDir packagesDir path)])) ∧
    (fs.dirs.contains (fullOf projectDir packagesDir path) = true →
      fs.files.contains (fullOf projectDir packagesDir path ++ "/index.html") = true →
      translate_path fs parent projectDir packagesDir path =
        (some (fullOf projectDir packagesDir path ++ "/index.html"),
         [HEv.fsCheck (fullOf projectDir packagesDir path),
          HEv.fsCheck (fullOf projectDir packagesDir path ++ "/index.html")])) := by
  constructor
  · intro hdir
    unfold translate_path
    simp only [hsafe, Bool.false_eq_true, if_false]
    have hd : (fullOf projectDir packagesDir path) ∉ fs.dirs := by simpa using hdir
    by_cases he : hasExtension (lastNameOf path) = true <;> simp [hd, he]
  · intro hdir hidx
    unfold translate_path
    simp only [hsafe, Bool.false_eq_true, if_false]
    have hd : (fullOf projectDir packagesDir path) ∈ fs.dirs := by simpa using hdir
    have hi : (fullOf projectDir packagesDir path ++ "/index.html") ∈ fs.files := by
      simpa using hidx
    simp [hd, hi]

/-- Counterexample to claim C5 as stated: `/empty/` has no file extension, but
on a filesystem where `<root>/empty` is an existing directory without its own
`index.html` the handler delegates to the standard static handler rather than
resolving to `<root>/index.html` (matching
`test_translate_path_directory_without_index`). -/
theorem translate_path_dir_without_index_cex :
    hasExtension (lastNameOf "/empty/") = false ∧
    (translate_path ⟨["/pr/.q", "/pr/.q/empty"], ["/pr/.q/index.html"]⟩ parentA
        "/pr" ".q" "/empty/").1 = some "PARENT" ∧
    some ("PARENT" : String) ≠ some ("/pr/.q/index.html" : String) := by
  refine ⟨by decide, by decide, by decide⟩

/-- Witness for claim C5 (amended): the extensionless route `/foo?x=1` on a
filesystem without a matching directory resolves to `<root>/index.html`, and
`/` on a document root containing `index.html` resolves to the same. -/
theorem translate_path_spa_fallback_witness :
    climbs (pathParts "/foo?x=1") 0 = false ∧
    translate_path ⟨["/pr/.q"], ["/pr/.q/index.html"]⟩ parentA "/pr" ".q" "/foo?x=1" =
      (some "/pr/.q/index.html", [HEv.fsCheck "/pr/.q/foo"]) ∧
    translate_path ⟨["/pr/.q"], ["/pr/.q/index.html"]⟩ parentA "/pr" ".q" "/" =
      (some "/pr/.q/index.html",
       [HEv.fsCheck "/pr/.q", HEv.fsCheck "/pr/.q/index.html"]) := by
  refine ⟨by decide, ?_, ?_⟩
  · have h := (translate_path_spa_fallback ⟨["/pr/.q"], ["/pr/.q/index.html"]⟩ parentA
      "/pr" ".q" "/foo?x=1" (by decide)).1 (by decide)
    rw [h]
    rfl
  · have h := (translate_path_spa_fallback ⟨["/pr/.q"], ["/pr/.q/index.html"]⟩ parentA
      "/pr" ".q" "/" (by decide)).2 (by decide) (by decide)
    rw [h]
    rfl

/-- The state of a request handler while a response is being produced: the
headers sent so far and whether the header section has been flushed by the
base class `end_headers`. -/
structure HandlerState where
  headers : List (String × String)
  flushed : Bool
deriving DecidableEq

/-- One `send_header(key, value)` call. -/
def send_header (s : HandlerState) (key value : String) : HandlerState :=
  { s with headers := s.headers ++ [(key, value)] }

/-- The base class `SimpleHTTPRequestHandler.end_headers`, which closes the
header section. -/
def superEndHeaders (s : HandlerState) : HandlerState :=
  { s with flushed := true }

/-- Modelled from the spec: `end_headers` of the request handler in the
missing `http_server.py`: it appends the three permissive CORS headers and
then calls the base class `end_headers` (header names and values fixed by
`test_end_headers_adds_cors`). -/
def end_headers (s : HandlerState) : HandlerState :=
  superEndHeaders
    (send_header
      (send_header
        (send_header s "Access-Control-Allow-Origin" "*")
        "Access-Control-Allow-Methods" "GET, POST, OPTIONS")
      "Access-Control-Allow-Headers" "Content-Type")

/-- Claim C9: whatever headers a response has already sent, `end_headers`
appends exactly the three CORS headers — `Access-Control-Allow-Origin: *`,
`Access-Control-Allow-Methods: GET, POST, OPTIONS` and
`Access-Control-Allow-Headers: Content-Type` — after the normal header set,
and flushes the header section. -/
theorem end_headers_adds_cors (s : HandlerState) :
    (end_headers s).headers =
      s.headers ++
        [("Access-Control-Allow-Origin", "*"),
         ("Access-Control-Allow-Methods", "GET, POST, OPTIONS"),
         ("Access-Control-Allow-Headers", "Content-Type")] ∧
    (end_headers s).flushed = true := by
  constructor
  · simp [end_headers, send_header, superEndHeaders]
  · rfl

end Quillion.Gateway

namespace Quillion.RunCmd

/-! ### Orchestrator (`src/quillion_cli/commands/run.py`)

`start_development_server`, `shutdown_servers` and `run_command` are embedded
from the source.  Calls to the collaborators (run_server, start_http_server,
the debugger, watchers, process handles) are recorded as trace events; their
outcomes — whether the spawn produced a process, whether a gateway instance
was returned, and when `KeyboardInterrupt` arrives — are inputs of the
embedding. -/

/-- Observable events of a run of the orchestrator. -/
inductive RunEvent
  | bannerMsg
  | runServerCall
  | startHttpCall
  | serverStartMsg
  | procWait
  | procTerminate
  | setupWatchersCall
  | sleep
  | errorMsg
  | infoMsg
  | restartCall
  | shutdownServerCall
  | httpdShutdownCall
  | shutdownWatchersCall
deriving DecidableEq

/-- One iteration of the hot-reload liveness loop: either `KeyboardInterrupt`
arrives during the sleep, or the iteration runs with a given poll outcome
(`dead` when `poll()` returned an exit status) and, if a restart happens, its
result. -/
inductive LoopStep
  | interrupt
  | tick (dead : Bool) (restartResult : Option Nat)
deriving DecidableEq

/-- Outcomes of the collaborators during one orchestrator run: the result of
the initial `run_server` call, whether `start_http_server` returned a server,
whether `KeyboardInterrupt` arrives during the blocking `process.wait()` of
the no-hot-reload branch, and the scripted liveness-loop iterations. -/
structure Scenario where
  runServerResult : Option Nat
  httpdSome : Bool
  waitInterrupted : Bool
  loopSteps : List LoopStep
deriving DecidableEq

/-- The `while True` liveness loop of `start_development_server`: each
iteration sleeps 0.5 time units, then polls the current process if one exists
and restarts it when it died.  Returns the events, the final current process
and whether the loop ended by `KeyboardInterrupt`. -/
def devLoop : List LoopStep → Option Nat → List RunEvent × (Option Nat × Bool)
  | [], p => ([], (p, false))
  | LoopStep.interrupt :: _, p => ([RunEvent.sleep], (p, true))
  | LoopStep.tick dead r :: rest, p =>
    match p with
    | some pid =>
      if dead then
        let next := devLoop rest r
        (RunEvent.sleep :: RunEvent.errorMsg :: RunEvent.restartCall :: next.1, next.2)
      else
        let next := devLoop rest (some pid)
        (RunEvent.sleep :: next.1, next.2)
    | none =>
      let next := devLoop rest none
      (RunEvent.sleep :: next.1, next.2)

/-- Embedding of `shutdown_servers(process, httpd, observers)`: supervisor
shutdown of the current process, then — when a gateway instance exists —
gateway shutdown, then watcher teardown. -/
def shutdown_servers (httpdSome : Bool) : List RunEvent :=
  RunEvent.shutdownServerCall ::
    ((if httpdSome then [RunEvent.httpdShutdownCall] else []) ++
      [RunEvent.shutdownWatchersCall])

/-- Embedding of `start_development_server(config, project_dir, hot_reload)`:
spawn; on failure return at once.  On success start the gateway and report the
server start.  Without hot reload, block on `process.wait()` and on
`KeyboardInterrupt` log and call `process.terminate()`.  With hot reload, set
up the watchers and run the liveness loop; on `KeyboardInterrupt` log and call
`shutdown_servers`. -/
def start_development_server (sc : Scenario) (hotReload : Bool) : List RunEvent :=
  match sc.runServerResult with
  | none => [RunEvent.runServerCall]
  | some p =>
    [RunEvent.runServerCall, RunEvent.startHttpCall, RunEvent.serverStartMsg] ++
      (if hotReload then
        RunEvent.setupWatchersCall ::
          (let l := devLoop sc.loopSteps (some p)
           l.1 ++
             (if l.2.2 then RunEvent.infoMsg :: shutdown_servers sc.httpdSome else []))
      else
        RunEvent.procWait ::
          (if sc.waitInterrupted then [RunEvent.infoMsg, RunEvent.procTerminate] else []))

/-- The CLI override options of `run_command`; each set override only logs an
informational message (the mutated configuration fields are absorbed into the
scenario). -/
structure Overrides where
  port : Option Nat
  host : Option String
  httpPort : Option Nat
  noHttp : Bool
  verboseHttp : Bool
deriving DecidableEq

/-- Informational messages produced by the applied CLI overrides. -/
def overrideMsgs (ov : Overrides) : List RunEvent :=
  (if ov.port.isSome then [RunEvent.infoMsg] else []) ++
    (if ov.host.isSome then [RunEvent.infoMsg] else []) ++
    (if ov.httpPort.isSome then [RunEvent.infoMsg] else []) ++
    (if ov.noHttp then [RunEvent.infoMsg] else []) ++
    (if ov.verboseHttp then [RunEvent.infoMsg] else [])

/-- Embedding of `run_command`: print the banner; when the project directory
does not exist, report the error and exit with code 1 (`typer.Exit(1)`);
otherwise load the configuration, apply the overrides and run
`start_development_server`, returning normally — process exit code 0. -/
def run_command (dirExists : Bool) (ov : Overrides) (sc : Scenario)
    (hotReload : Bool) : List RunEvent × Nat :=
  if dirExists then
    (RunEvent.bannerMsg :: (overrideMsgs ov ++ start_development_server sc hotReload), 0)
  else
    ([RunEvent.bannerMsg, RunEvent.errorMsg], 1)

/-- Overrides with nothing set. -/
def ovNone : Overrides :=
  { port := none, host := none, httpPort := none, noHttp := false, verboseHttp := false }

theorem overrideMsgs_events (ov : Overrides) (e : RunEvent)
    (he : e ∈ overrideMsgs ov) : e = RunEvent.infoMsg := by
  unfold overrideMsgs at he
  simp only [List.mem_append] at he
  rcases he with ((((h | h) | h) | h) | h) <;> (split at h <;> simp_all)

/-- Claim C7 (amended): when the initial spawn fails, the orchestrator stops
at once — the gateway is never started, no watchers are created and no server
start is reported — but the process exit code is 0: `start_development_server`
simply returns after `run_server`'s own failure report. -/
theorem spawn_fail_stops_early (ov : Overrides) (hb wi : Bool)
    (steps : List LoopStep) (hotReload : Bool) :
    run_command true ov ⟨none, hb, wi, steps⟩ hotReload =
      (RunEvent.bannerMsg :: (overrideMsgs ov ++ [RunEvent.runServerCall]), 0) ∧
    RunEvent.startHttpCall ∉ (run_command true ov ⟨none, hb, wi, steps⟩ hotReload).1 ∧
    RunEvent.setupWatchersCall ∉ (run_command true ov ⟨none, hb, wi, steps⟩ hotReload).1 ∧
    RunEvent.serverStartMsg ∉ (run_command true ov ⟨none, hb, wi, steps⟩ hotReload).1 := by
  have hrun : run_command true ov ⟨none, hb, wi, steps⟩ hotReload =
      (RunEvent.bannerMsg :: (overrideMsgs ov ++ [RunEvent.runServerCall]), 0) := by
    rfl
  have htrace : (run_command true ov ⟨none, hb, wi, steps⟩ hotReload).1 =
      RunEvent.bannerMsg :: (overrideMsgs ov ++ [RunEvent.runServerCall]) := by
    rw [hrun]
  refine ⟨hrun, ?_, ?_, ?_⟩ <;>
    · rw [htrace]
      intro hmem
      rcases List.mem_cons.mp hmem with h0 | h0
      · simp at h0
      rcases List.mem_append.mp h0 with h1 | h1
      · have h2 := overrideMsgs_events ov _ h1
        simp at h2
      · simp at h1

/-- Counterexample to claim C7 as stated: with a failing spawn the whole run
still finishes with process exit code 0, not a non-zero code. -/
theorem spawn_fail_exit_code_cex :
    (run_command true ovNone ⟨none, true, false, []⟩ true).2 = 0 ∧ ¬ (0 : Nat) ≠ 0 := by
  exact ⟨rfl, by decide⟩

/-- Witness for claim C7 (amended): concrete failing-spawn run with no
overrides. -/
theorem spawn_fail_stops_early_witness :
    run_command true ovNone ⟨none, false, false, []⟩ false =
      ([RunEvent.bannerMsg, RunEvent.runServerCall], 0) ∧
    RunEvent.startHttpCall ∉ (run_command true ovNone ⟨none, false, false, []⟩ false).1 := by
  have h := spawn_fail_stops_early ovNone false false [] false
  exact ⟨h.1, h.2.1⟩

theorem devLoop_events (steps : List LoopStep) (p : Option Nat) (e : RunEvent)
    (he : e ∈ (devLoop steps p).1) :
    e = RunEvent.sleep ∨ e = RunEvent.errorMsg ∨ e = RunEvent.restartCall := by
  induction steps generalizing p with
  | nil => simp [devLoop] at he
  | cons s rest ih =>
    cases s with
    | interrupt =>
      simp [devLoop] at he
      exact Or.inl he
    | tick dead r =>
      cases p with
      | none =>
        rcases List.mem_cons.mp he with h0 | h0
        · exact Or.inl h0
        · exact ih _ h0
      | some pid =>
        by_cases hd : dead = true
        · subst hd
          simp only [devLoop, if_true] at he
          rcases List.mem_cons.mp he with h0 | h0
          · exact Or.inl h0
          rcases List.mem_cons.mp h0 with h1 | h1
          · exact Or.inr (Or.inl h1)
          rcases List.mem_cons.mp h1 with h2 | h2
          · exact Or.inr (Or.inr h2)
          · exact ih _ h2
        · rw [Bool.not_eq_true] at hd
          subst hd
          simp only [devLoop, Bool.false_eq_true, if_false] at he
          rcases List.mem_cons.mp he with h0 | h0
          · exact Or.inl h0
          · exact ih _ h0

/-- Claim C8 (amended): with hot reload enabled, an interrupt during the
liveness loop triggers ordered shutdown — supervisor shutdown of the current
process first, then gateway shutdown when a gateway instance exists, then
watcher teardown, as the final events of the run, none of them occurring
earlier. -/
theorem interrupt_shutdown_order (p : Nat) (hb wi : Bool) (steps : List LoopStep)
    (hInt : (devLoop steps (some p)).2.2 = true) :
    ∃ pre,
      start_development_server ⟨some p, hb, wi, steps⟩ true =
        pre ++ [RunEvent.infoMsg, RunEvent.shutdownServerCall] ++
          (if hb then [RunEvent.httpdShutdownCall] else []) ++
          [RunEvent.shutdownWatchersCall] ∧
      RunEvent.shutdownServerCall ∉ pre ∧
      RunEvent.httpdShutdownCall ∉ pre ∧
      RunEvent.shutdownWatchersCall ∉ pre := by
  refine ⟨[RunEvent.runServerCall, RunEvent.startHttpCall, RunEvent.serverStartMsg,
    RunEvent.setupWatchersCall] ++ (devLoop steps (some p)).1, ?_, ?_, ?_, ?_⟩
  · simp only [start_development_server, if_true, hInt, shutdown_servers]
    cases hb <;> simp
  · intro hmem
    simp only [List.mem_append, List.mem_cons, List.not_mem_nil] at hmem
    rcases hmem with (h0 | h0 | h0 | h0 | h0) | h0
    · exact absurd h0 (by decide)
    · exact absurd h0 (by decide)
    · exact absurd h0 (by decide)
    · exact absurd h0 (by decide)
    · exact h0.elim
    · rcases devLoop_events steps (some p) _ h0 with h1 | h1 | h1 <;> simp at h1
  · intro hmem
    simp only [List.mem_append, List.mem_cons, List.not_mem_nil] at hmem
    rcases hmem with (h0 | h0 | h0 | h0 | h0) | h0
    · exact absurd h0 (by decide)
    · exact absurd h0 (by decide)
    · exact absurd h0 (by decide)
    · exact absurd h0 (by decide)
    · exact h0.elim
    · rcases devLoop_events steps (some p) _ h0 with h1 | h1 | h1 <;> simp at h1
  · intro hmem
    simp only [List.mem_append, List.mem_cons, List.not_mem_nil] at hmem
    rcases hmem with (h0 | h0 | h0 | h0 | h0) | h0
    · exact absurd h0 (by decide)
    · exact absurd h0 (by decide)
    · exact absurd h0 (by decide)
    · exact absurd h0 (by decide)
    · exact h0.elim
    · rcases devLoop_events steps (some p) _ h0 with h1 | h1 | h1 <;> simp at h1

/-- Counterexample to claim C8 as stated: in a run with hot reload disabled
and a started gateway, an interrupt during `process.wait()` only logs and
calls `process.terminate()` — no gateway shutdown and no watcher teardown
happen. -/
theorem no_hot_reload_shutdown_cex :
    start_development_server ⟨some 1, true, true, []⟩ false =
      [RunEvent.runServerCall, RunEvent.startHttpCall, RunEvent.serverStartMsg,
       RunEvent.procWait, RunEvent.infoMsg, RunEvent.procTerminate] ∧
    RunEvent.httpdShutdownCall ∉ start_development_server ⟨some 1, true, true, []⟩ false ∧
    RunEvent.shutdownWatchersCall ∉ start_development_server ⟨some 1, true, true, []⟩ false ∧
    RunEvent.shutdownServerCall ∉ start_development_server ⟨some 1, true, true, []⟩ false := by
  refine ⟨rfl, by decide, by decide, by decide⟩

/-- Witness for claim C8 (amended): a run whose first loop iteration is
interrupted performs the ordered shutdown suffix. -/
theorem interrupt_shutdown_order_witness :
    ∃ pre,
      start_development_server ⟨some 1, true, false, [LoopStep.interrupt]⟩ true =
        pre ++ [RunEvent.infoMsg, RunEvent.shutdownServerCall] ++
          [RunEvent.httpdShutdownCall] ++ [RunEvent.shutdownWatchersCall] ∧
      RunEvent.shutdownServerCall ∉ pre ∧
      RunEvent.httpdShutdownCall ∉ pre ∧
      RunEvent.shutdownWatchersCall ∉ pre := by
  have h := interrupt_shutdown_order 1 true false [LoopStep.interrupt] (by decide)
  simpa using h

end Quillion.RunCmd

namespace Quillion.Templates

/-! ### Project scaffolding (`src/quillion_cli/utils/templates.py`)

`process_templates` is embedded from the source.  The recursive directory
listing `templates_dir.rglob("*")` is an input: the entries with their
template-relative POSIX paths and whether each is a regular file.  Jinja
rendering of a template with the given context is an abstract function from
the template's relative path to the rendered text. -/

open Quillion

/-- One entry of the recursive template-directory listing. -/
structure TEntry where
  rel : String
  isFile : Bool
deriving DecidableEq

/-- Embedding of `process_templates(project_dir, context, templates_dir)`: for
every regular file of the listing, write the template rendered with the
context to `Path(project_dir) / relative_path` with its final suffix removed
(`target_path.with_suffix("")`); directory entries are skipped.  Returns the
performed writes as (target path, content) pairs in listing order. -/
def process_templates (render : String → String) (projectDir : String) :
    List TEntry → List (String × String)
  | [] => []
  | e :: rest =>
    if e.isFile then
      (withSuffixEmpty (projectDir ++ "/" ++ e.rel), render e.rel) ::
        process_templates render projectDir rest
    else
      process_templates render projectDir rest

/-- Claim C10: `process_templates` performs exactly one write per regular file
of the template listing and none for directory entries; the write of a file
with relative path `rel` targets `projectDir/rel` with only the final suffix
removed and carries the rendered template as content; every performed write
arises from some regular file this way.  In particular `a/b.txt.j2` targets
`a/b.txt` and `file.no.extension.j2` targets `file.no.extension`. -/
theorem process_templates_spec (render : String → String) (projectDir : String)
    (entries : List TEntry) :
    (process_templates render projectDir entries).length =
      (entries.filter (fun e => e.isFile)).length ∧
    (∀ e ∈ entries, e.isFile = true →
      (withSuffixEmpty (projectDir ++ "/" ++ e.rel), render e.rel) ∈
        process_templates render projectDir entries) ∧
    (∀ w ∈ process_templates render projectDir entries,
      ∃ e, e ∈ entries ∧ e.isFile = true ∧
        w = (withSuffixEmpty (projectDir ++ "/" ++ e.rel), render e.rel)) ∧
    withSuffixEmpty "a/b.txt.j2" = "a/b.txt" ∧
    withSuffixEmpty "file.no.extension.j2" = "file.no.extension" := by
  refine ⟨?_, ?_, ?_, by decide, by decide⟩
  · induction entries with
    | nil => rfl
    | cons e rest ih =>
      by_cases hf : e.isFile = true
      · simp [process_templates, List.filter, hf, ih]
      · rw [Bool.not_eq_true] at hf
        simp [process_templates, List.filter, hf, ih]
  · intro e he hf
    induction entries with
    | nil => simp at he
    | cons e0 rest ih =>
      rcases List.mem_cons.mp he with h0 | h0
      · subst h0
        simp [process_templates, hf]
      · by_cases hf0 : e0.isFile = true
        · simp only [process_templates, hf0, if_true]
          exact List.mem_cons_of_mem _ (ih h0)
        · rw [Bool.not_eq_true] at hf0
          simp only [process_templates, hf0, Bool.false_eq_true, if_false]
          exact ih h0
  · intro w hw
    induction entries with
    | nil => simp [process_templates] at hw
    | cons e0 rest ih =>
      by_cases hf0 : e0.isFile = true
      · simp only [process_templates, hf0, if_true] at hw
        rcases List.mem_cons.mp hw with h0 | h0
        · exact ⟨e0, List.mem_cons_self _ _, hf0, h0⟩
        · rcases ih h0 with ⟨e, hmem, hf, hweq⟩
          exact ⟨e, List.mem_cons_of_mem _ hmem, hf, hweq⟩
      · rw [Bool.not_eq_true] at hf0
        simp only [process_templates, hf0, Bool.false_eq_true, if_false] at hw
        rcases ih hw with ⟨e, hmem, hf, hweq⟩
        exact ⟨e, List.mem_cons_of_mem _ hmem, hf, hweq⟩

/-- Rendering stand-in used by the witness. -/
def renderA : String → String := fun _ => "rendered"

/-- Witness for claim C10: a listing with one directory and one regular file
produces exactly the one write `a/b.txt` with the rendered content. -/
theorem process_templates_spec_witness :
    (⟨"a/b.txt.j2", true⟩ : TEntry) ∈
      ([⟨"a", false⟩, ⟨"a/b.txt.j2", true⟩] : List TEntry) ∧
    (withSuffixEmpty ("p" ++ "/" ++ "a/b.txt.j2"), renderA "a/b.txt.j2") ∈
      process_templates renderA "p" [⟨"a", false⟩, ⟨"a/b.txt.j2", true⟩] ∧
    (process_templates renderA "p" [⟨"a", false⟩, ⟨"a/b.txt.j2", true⟩]).length = 1 := by
  have h := process_templates_spec renderA "p" [⟨"a", false⟩, ⟨"a/b.txt.j2", true⟩]
  refine ⟨by decide, ?_, ?_⟩
  · exact h.2.1 ⟨"a/b.txt.j2", true⟩ (by decide) rfl
  · rw [h.1]
    rfl

end Quillion.Templates
